import Mathlib

/-!
Verification of the AutoFLAP finite-state-automaton core
(`autoflap/automaton/automaton.py`, `state.py`, `transition.py`,
`constants.py`) via a shallow embedding.

Modelling conventions:
* Python object identity is modelled by an `id : Nat` field on `State`;
  fresh states are allocated from the automaton's `nextId` counter
  (`nextId` itself is a modelling artefact standing for the heap).
* Mutation is explicit state passing: each mutating operation returns
  the post-call automaton together with an `Except` result mirroring
  the raised exception, so "the collection is unchanged on failure" is
  a provable statement rather than a modelling assumption.
* The CSV file is modelled as its list of rows (each a list of cell
  strings); dialect sniffing and file I/O are external collaborators.
* Python's `x in y` substring test is `strIn`, `list.pop` is `popAt`
  (returning the `IndexError` the source would raise out of range).
-/

deriving instance DecidableEq for Except

namespace Autoflap

/-- The exception taxonomy of `automaton/error.py`, plus the built-in
Python exceptions that `parse_csv`/`build_jff` can raise
(`IndexError`, `StopIteration`, `NotADirectoryError`,
`FileExistsError`). -/
inductive AutomatonError where
  | stateExists (name : String)
  | invalidStateName
  | transitionExists (origin : String) (cond : Option String)
  | stateNotFound (name : String)
  | initialStateAlreadyDefined (name : String)
  | headersNotFound
  | noInitialState
  | noFinalState
  | notADirectory
  | fileAlreadyExists
  | indexError
  | stopIteration
deriving DecidableEq

/-- `state.py`: a state has an immutable non-empty `name` and a mutable
`is_final` flag.  The `id` field models Python object identity. -/
structure State where
  id : Nat
  name : String
  isFinal : Bool
deriving DecidableEq

/-- Python `==` on `State` objects is default object identity; `id`
models the identity. -/
def stateEq (s t : State) : Bool := s.id == t.id

/-- `transition.py`: origin, target (defaulting to origin) and the
optional condition `when`. -/
structure Transition where
  origin : State
  target : State
  cond : Option String
deriving DecidableEq

/-- The `Transition` constructor: `target` defaults to `origin`;
`when` is normalised by `None if not when else str(when)`, so both
`None` and the empty string become `none`. -/
def Transition.make (origin : State) (target : Option State)
    (w : Option String) : Transition :=
  { origin := origin
    target := target.getD origin
    cond := match w with
            | none => none
            | some s => if s = "" then none else some s }

/-- `automaton.py`: ordered states, ordered transitions, optional
initial-state reference.  `nextId` is the identity allocator. -/
structure Automaton where
  nextId : Nat
  states : List State
  transitions : List Transition
  initialState : Option State
deriving DecidableEq

/-- A brand-new automaton (`Automaton.__init__` calls `reset`). -/
def emptyAutomaton : Automaton :=
  { nextId := 0, states := [], transitions := [], initialState := none }

/-- `Automaton.reset`: remove all states and transitions and clear the
initial state. -/
def reset (a : Automaton) : Automaton :=
  { a with states := [], transitions := [], initialState := none }

/-- `Automaton.get_state`: first state with the given name. -/
def get_state (a : Automaton) (name : String) : Option State :=
  a.states.find? (fun s => s.name == name)

/-- `Automaton.has_state`. -/
def has_state (a : Automaton) (name : String) : Bool :=
  (get_state a name).isSome

/-- `Automaton.get_transition`: first transition with the given origin
(object identity) and condition. -/
def get_transition (a : Automaton) (origin : State) (w : Option String) :
    Option Transition :=
  a.transitions.find? (fun t => stateEq t.origin origin && t.cond == w)

/-- `Automaton.has_transition`. -/
def has_transition (a : Automaton) (origin : State) (w : Option String) :
    Bool :=
  (get_transition a origin w).isSome

/-- `Automaton.final_states`. -/
def final_states (a : Automaton) : List State :=
  a.states.filter (fun s => s.isFinal)

/-- `Automaton.has_final_state`: `len(final_states) > 0`. -/
def has_final_state (a : Automaton) : Bool :=
  (final_states a).length > 0

/-- `Automaton.has_initial_state`. -/
def has_initial_state (a : Automaton) : Bool :=
  a.initialState.isSome

/-- Auxiliary for `strIn`: substring test on character lists. -/
def hasSubList (needle : List Char) : List Char → Bool
  | [] => needle.isEmpty
  | c :: rest => needle.isPrefixOf (c :: rest) || hasSubList needle rest

/-- Python's substring containment `needle in hay`. -/
def strIn (needle hay : String) : Bool :=
  hasSubList needle.data hay.data

/-- `Automaton.add_state`: duplicate-name check, then the `State`
constructor's non-empty-name check, then append. -/
def add_state (a : Automaton) (name : String) :
    Automaton × Except AutomatonError State :=
  if has_state a name then
    (a, .error (.stateExists name))
  else if name = "" then
    (a, .error .invalidStateName)
  else
    let s : State := { id := a.nextId, name := name, isFinal := false }
    ({ a with nextId := a.nextId + 1, states := a.states ++ [s] }, .ok s)

/-- `Automaton.add_transition`: duplicate `(origin, when)` check, then
construct the transition, then membership-by-name checks for origin and
any provided target (the constructed transition is discarded on
failure), then append. -/
def add_transition (a : Automaton) (origin : State) (target : Option State)
    (w : Option String) : Automaton × Except AutomatonError Transition :=
  if has_transition a origin w then
    (a, .error (.transitionExists origin.name w))
  else
    let t := Transition.make origin target w
    if !has_state a origin.name then
      (a, .error (.stateNotFound origin.name))
    else
      match target with
      | some tg =>
        if !has_state a tg.name then
          (a, .error (.stateNotFound tg.name))
        else
          ({ a with transitions := a.transitions ++ [t] }, .ok t)
      | none =>
        ({ a with transitions := a.transitions ++ [t] }, .ok t)

/-- The `initial_state` property setter: membership-by-name check, then
store the reference (the `isinstance` check is subsumed by typing). -/
def set_initial_state (a : Automaton) (s : State) :
    Automaton × Except AutomatonError Unit :=
  if !has_state a s.name then
    (a, .error (.stateNotFound s.name))
  else
    ({ a with initialState := some s }, .ok ())

/-- Python `state.is_final = True` on the state object with identity
`sid`: all aliases of the object (the entry of the state list, the
initial-state reference, any transition endpoint) see the update. -/
def set_final (a : Automaton) (sid : Nat) : Automaton :=
  let upd := fun (s : State) =>
    if s.id = sid then { s with isFinal := true } else s
  { a with
    states := a.states.map upd
    initialState := a.initialState.map upd
    transitions := a.transitions.map
      (fun t => { t with origin := upd t.origin, target := upd t.target }) }

/-- Python `row.pop(i)` for a non-negative index: the removed cell and
the remaining row, or `IndexError` out of range. -/
def popAt (xs : List String) (i : Nat) :
    Except AutomatonError (String × List String) :=
  if h : i < xs.length then .ok (xs.get ⟨i, h⟩, xs.eraseIdx i)
  else .error .indexError

/-- `parse_csv` lines 514-517: pop the state-name cell at
`states_col_index`, then pop the marker cell at
`state_symbols_col_index` decremented by one when it is numerically
greater than `states_col_index`. -/
def split_state_marker (row : List String) (si mi : Nat) :
    Except AutomatonError (String × String × List String) :=
  match popAt row si with
  | .error e => .error e
  | .ok (name, row1) =>
    match popAt row1 (mi - (if mi > si then 1 else 0)) with
    | .error e => .error e
    | .ok (marker, row2) => .ok (name, marker, row2)

/-- `parse_csv` lines 533-537 / 542-543: remove the two configured
columns, higher index first (`sorted` then `reverse`). -/
def pop_two_desc (si mi : Nat) (row : List String) :
    Except AutomatonError (List String) :=
  match popAt row (max si mi) with
  | .error e => .error e
  | .ok (_, r1) =>
    match popAt r1 (min si mi) with
    | .error e => .error e
    | .ok (_, r2) => .ok r2

/-- The parsing configuration of `parse_csv`, with the defaults of
`constants.py`. -/
structure ParseConfig where
  initial_state_symbol : String := ">"
  final_state_symbol : String := "*"
  no_transition_symbol : String := "-"
  empty_string_symbol : String := "-"
  states_col_index : Nat := 1
  state_symbols_col_index : Nat := 0
deriving DecidableEq

/-- One iteration of the first pass of `parse_csv` (lines 513-527):
pop the name cell, add the state, pop the marker cell, then handle the
initial and final marker characters. -/
def parse_row_state (cfg : ParseConfig) (a : Automaton) (row : List String) :
    Except AutomatonError Automaton :=
  match popAt row cfg.states_col_index with
  | .error e => .error e
  | .ok (name, row1) =>
    match add_state a name with
    | (_, .error e) => .error e
    | (a1, .ok st) =>
      match popAt row1 (cfg.state_symbols_col_index -
          (if cfg.state_symbols_col_index > cfg.states_col_index
           then 1 else 0)) with
      | .error e => .error e
      | .ok (state_type, _) =>
        match (if strIn cfg.initial_state_symbol state_type then
                 match a1.initialState with
                 | some cur =>
                   Except.error (.initialStateAlreadyDefined cur.name)
                 | none =>
                   match set_initial_state a1 st with
                   | (_, .error e) => Except.error e
                   | (a', .ok _) => Except.ok a'
               else Except.ok a1 : Except AutomatonError Automaton) with
        | .error e => .error e
        | .ok a2 =>
          .ok (if strIn cfg.final_state_symbol state_type then
                 set_final a2 st.id
               else a2)

/-- The first pass of `parse_csv`: fold `parse_row_state` over the data
rows. -/
def parse_pass1 (cfg : ParseConfig) (a : Automaton) :
    List (List String) → Except AutomatonError Automaton
  | [] => .ok a
  | row :: rest =>
    match parse_row_state cfg a row with
    | .error e => .error e
    | .ok a' => parse_pass1 cfg a' rest

/-- The inner loop of the second pass (lines 545-556): for each
`(condition label, target cell)` pair, skip the no-transition marker,
resolve the target by name, and add the transition, mapping the
empty-string symbol to the canonical empty condition. -/
def add_row_transitions (cfg : ParseConfig) (st : State) (a : Automaton) :
    List (String × String) → Except AutomatonError Automaton
  | [] => .ok a
  | (w, name) :: rest =>
    if name = cfg.no_transition_symbol then
      add_row_transitions cfg st a rest
    else
      match get_state a name with
      | none => .error (.stateNotFound name)
      | some target =>
        match add_transition a st (some target)
            (if w ≠ cfg.empty_string_symbol then some w else none) with
        | (_, .error e) => .error e
        | (a', .ok _) => add_row_transitions cfg st a' rest

/-- The second pass of `parse_csv` (lines 539-556): for each state, in
creation order, read the next data row, remove the two configured
columns, and add the transitions of the zipped pairs.  Exhausting the
rows is the `StopIteration` the source's bare `next` would raise. -/
def parse_pass2 (cfg : ParseConfig) (columns : List String) (a : Automaton) :
    List State → List (List String) → Except AutomatonError Automaton
  | [], _ => .ok a
  | _ :: _, [] => .error .stopIteration
  | st :: sts, row :: rows =>
    match pop_two_desc cfg.states_col_index cfg.state_symbols_col_index row with
    | .error e => .error e
    | .ok cells =>
      match add_row_transitions cfg st a (columns.zip cells) with
      | .error e => .error e
      | .ok a' => parse_pass2 cfg columns a' sts rows

/-- The body of the `try` of `parse_csv` (lines 512-556): the first
pass over the data rows, then the removal of the two configured columns
from the header to obtain the condition labels, then the second pass. -/
def parse_populate (cfg : ParseConfig) (a0 : Automaton)
    (header : List String) (dataRows : List (List String)) :
    Except AutomatonError Automaton :=
  match parse_pass1 cfg a0 dataRows with
  | .error e => .error e
  | .ok a1 =>
    match pop_two_desc cfg.states_col_index
        cfg.state_symbols_col_index header with
    | .error e => .error e
    | .ok columns => parse_pass2 cfg columns a1 a1.states dataRows

/-- `Automaton.parse_csv` on the parsed row list: the equal-indices
check, the header consumption (`HeadersNotFound` on an empty source),
the reset, then both population passes inside the `try` whose handler
resets the automaton and re-raises.  (In the error branch the source
resets the partially populated automaton; since `reset` clears all
three observable fields, `reset (reset a)` denotes that result.) -/
def parse_csv (a : Automaton) (cfg : ParseConfig)
    (rows : List (List String)) : Automaton × Except AutomatonError Unit :=
  if cfg.states_col_index = cfg.state_symbols_col_index then
    (a, .error .indexError)
  else
    match rows with
    | [] => (a, .error .headersNotFound)
    | header :: dataRows =>
      match parse_populate cfg (reset a) header dataRows with
      | .ok a' => (a', .ok ())
      | .error e => (reset (reset a), .error e)

/-- The file-system facts `build_jff` consults, abstracted: whether the
resolved output directory exists and whether the resolved output file
already exists. -/
structure Fs where
  dir_exists : Bool
  file_exists : Bool
deriving DecidableEq

/-- The check-and-write pipeline of `Automaton.build_jff` (lines
185-208): the initial-state and final-state preconditions come first,
before any path resolution or file-system test. -/
def build_jff (a : Automaton) (fs : Fs) : Except AutomatonError Unit :=
  if !has_initial_state a then .error .noInitialState
  else if !has_final_state a then .error .noFinalState
  else if !fs.dir_exists then .error .notADirectory
  else if fs.file_exists then .error .fileAlreadyExists
  else .ok ()

/-- `build_jff` line 225: the drawing angle of the state at
insertion-order index `idx` among `n` states,
`a = 2π·idx/n + π`.  (Real-valued; the source computes with `math`
floats and transcendentals, which have no executable counterpart.) -/
noncomputable def state_angle (idx n : Nat) : ℝ :=
  2 * Real.pi * idx / n + Real.pi

/-- `build_jff` line 226: the drawing radius `r = n · factor`. -/
def state_radius (n : Nat) (factor : ℝ) : ℝ := n * factor

/-- `build_jff` lines 228-230: the x coordinate
`r·cos(a) + r + margin` written for the state at index `idx`. -/
noncomputable def state_x (idx n : Nat) (factor margin : ℝ) : ℝ :=
  state_radius n factor * Real.cos (state_angle idx n)
    + state_radius n factor + margin

/-- `build_jff` lines 228-231: the y coordinate
`r·sin(a) + r + margin` written for the state at index `idx`. -/
noncomputable def state_y (idx n : Nat) (factor margin : ℝ) : ℝ :=
  state_radius n factor * Real.sin (state_angle idx n)
    + state_radius n factor + margin

/-- The structural invariant the code actually enforces (its membership
checks are by state *name*): every transition endpoint bears the name
of some state of the collection, and so does the initial-state
reference when set. -/
def namedInv (a : Automaton) : Prop :=
  (∀ t ∈ a.transitions,
      has_state a t.origin.name = true ∧ has_state a t.target.name = true)
  ∧ (∀ s, a.initialState = some s → has_state a s.name = true)

/-- The index of the original row that a retained cell at position `k`
comes from, after the columns `i` and `j` are removed: positions below
`min i j` are unshifted, positions between the two removals shift by
one, later positions shift by two.  (This renders the specification's
"the retained cells are the original row minus exactly those two
columns, in order".) -/
def skip_two (i j k : Nat) : Nat :=
  if k < min i j then k
  else if k + 1 < max i j then k + 1
  else k + 2

/-! ## Concrete inputs used by witnesses and counterexamples -/

/-- The example table of the specification (§8). -/
def exampleRows : List (List String) :=
  [["", "", "a", "b", "c", "-"],
   [">", "q1", "q2", "-", "q1", "q3"],
   ["", "q2", "q2", "q1", "q3", "-"],
   ["*", "q3", "-", "q1", "q3", "q2"]]

/-- A well-formed automaton with prior contents (the parsed example
table), used to exercise the frame and rollback behaviour. -/
def priorAutomaton : Automaton :=
  (parse_csv emptyAutomaton {} exampleRows).fst

/-- A table whose single data row references an unknown target state,
so the population phase fails with `StateNotFound`. -/
def unknownTargetRows : List (List String) :=
  [["", "", "a"], [">", "q1", "zz"]]

/-! ## Theorems -/

/-- **C1.** For every automaton (with any prior contents) and every
tabular source, if the import operation fails during the population
phase — the two column indices being distinct and the header row having
been consumed — the automaton is reset to empty (no states, no
transitions, no initial state) before the error propagates. -/
theorem parse_csv_rollback_on_population_failure
    (a : Automaton) (cfg : ParseConfig) (header : List String)
    (dataRows : List (List String)) (a' : Automaton) (e : AutomatonError)
    (hcols : cfg.states_col_index ≠ cfg.state_symbols_col_index)
    (hres : parse_csv a cfg (header :: dataRows) = (a', .error e)) :
    a'.states = [] ∧ a'.transitions = [] ∧ a'.initialState = none := by
  rw [parse_csv.eq_def, if_neg hcols] at hres
  cases hpop : parse_populate cfg (reset a) header dataRows with
  | ok a2 => simp [hpop] at hres
  | error e2 =>
    simp only [hpop] at hres
    have h1 : a' = reset (reset a) := by
      have h2 := congrArg Prod.fst hres
      simpa using h2.symm
    simp [h1, reset]

/-- Witness for C1: importing `unknownTargetRows` over an automaton
with prior contents fails and leaves the empty automaton. -/
theorem parse_csv_rollback_on_population_failure_witness :
    (({} : ParseConfig).states_col_index ≠
      ({} : ParseConfig).state_symbols_col_index)
    ∧ ((⟨3, [], [], none⟩ : Automaton).states = []
       ∧ (⟨3, [], [], none⟩ : Automaton).transitions = []
       ∧ (⟨3, [], [], none⟩ : Automaton).initialState = none) :=
  ⟨by decide,
   parse_csv_rollback_on_population_failure priorAutomaton {} ["", "", "a"]
     [[">", "q1", "zz"]] ⟨3, [], [], none⟩ (.stateNotFound "zz")
     (by decide) (by decide)⟩

/-- **C9.** If `parse_csv` fails before the population phase begins —
equal column indices (`IndexError`) or an empty source
(`HeadersNotFound`) — the automaton is left exactly as it was. -/
theorem parse_csv_frame_before_population
    (a : Automaton) (cfg : ParseConfig) (rows : List (List String)) :
    (cfg.states_col_index = cfg.state_symbols_col_index →
      parse_csv a cfg rows = (a, .error .indexError))
    ∧ (cfg.states_col_index ≠ cfg.state_symbols_col_index → rows = [] →
      parse_csv a cfg rows = (a, .error .headersNotFound)) := by
  constructor
  · intro h
    rw [parse_csv.eq_def, if_pos h]
  · intro h hrows
    subst hrows
    rw [parse_csv.eq_def, if_neg h]

/-- Witness for C9 at concrete inputs: both early failures leave the
prior automaton untouched. -/
theorem parse_csv_frame_before_population_witness :
    ((1 : Nat) = 1 →
      parse_csv priorAutomaton
        { states_col_index := 1, state_symbols_col_index := 1 }
        unknownTargetRows
        = (priorAutomaton, .error .indexError))
    ∧ ((1 : Nat) ≠ 0 → ([] : List (List String)) = [] →
      parse_csv priorAutomaton {} [] =
        (priorAutomaton, .error .headersNotFound)) :=
  parse_csv_frame_before_population priorAutomaton _ _ |>.1 rfl
    |> fun h => ⟨fun _ => h,
      fun _ _ =>
        (parse_csv_frame_before_population priorAutomaton {} []).2
          (by decide) rfl⟩

/-- **C7.** `build_jff` fails with `NoInitialState` whenever no initial
state is set; with an initial state but no final state it fails with
`NoFinalState`; with no final state it always fails with one of the
two — for every automaton and every state of the file system, so both
checks precede any path resolution or file writing. -/
theorem build_jff_preconditions (a : Automaton) (fs : Fs) :
    (has_initial_state a = false → build_jff a fs = .error .noInitialState)
    ∧ (has_initial_state a = true → has_final_state a = false →
        build_jff a fs = .error .noFinalState)
    ∧ (has_final_state a = false →
        build_jff a fs = .error .noInitialState
        ∨ build_jff a fs = .error .noFinalState) := by
  refine ⟨fun h1 => ?_, fun h1 h2 => ?_, fun h2 => ?_⟩
  · rw [build_jff, h1]
    rfl
  · rw [build_jff, h1, h2]
    rfl
  · cases h1 : has_initial_state a with
    | false => exact Or.inl (by rw [build_jff, h1]; rfl)
    | true => exact Or.inr (by rw [build_jff, h1, h2]; rfl)

/-- Witness for C7: an automaton with no initial state, and one with an
initial but no final state, against a fully permissive file system. -/
theorem build_jff_preconditions_witness :
    build_jff emptyAutomaton ⟨true, false⟩ = .error .noInitialState
    ∧ build_jff ⟨1, [⟨0, "q1", false⟩], [], some ⟨0, "q1", false⟩⟩
        ⟨true, false⟩ = .error .noFinalState :=
  ⟨(build_jff_preconditions emptyAutomaton ⟨true, false⟩).1 (by decide),
   (build_jff_preconditions
      ⟨1, [⟨0, "q1", false⟩], [], some ⟨0, "q1", false⟩⟩
      ⟨true, false⟩).2.1 (by decide) (by decide)⟩

/-- **C8.** For every non-empty name `s` not yet present, `add_state`
appends and returns a state named `s`, after which `has_state` holds
and a second `add_state s` fails with `StateExists` leaving the state
collection unchanged. -/
theorem add_state_then_duplicate
    (a : Automaton) (name : String) (hval : name ≠ "")
    (hfree : has_state a name = false) :
    (add_state a name).snd = .ok ⟨a.nextId, name, false⟩
    ∧ (add_state a name).fst.states = a.states ++ [⟨a.nextId, name, false⟩]
    ∧ has_state (add_state a name).fst name = true
    ∧ add_state (add_state a name).fst name
        = ((add_state a name).fst, .error (.stateExists name)) := by
  have hstep : add_state a name
      = ({ a with nextId := a.nextId + 1,
                  states := a.states ++ [⟨a.nextId, name, false⟩] },
         .ok ⟨a.nextId, name, false⟩) := by
    rw [add_state, if_neg (by simp [hfree]), if_neg hval]
  have hmem : has_state (add_state a name).fst name = true := by
    rw [hstep]
    simp only [has_state, get_state, List.find?_append]
    cases hfind : (a.states.find? (fun s => s.name == name)) with
    | some s => simp [hfind, Option.or]
    | none => simp [hfind, Option.or, List.find?]
  refine ⟨by rw [hstep], by rw [hstep], hmem, ?_⟩
  rw [add_state, if_pos hmem]

/-- Witness for C8 on a concrete automaton. -/
theorem add_state_then_duplicate_witness :
    (add_state emptyAutomaton "q1").snd = .ok ⟨0, "q1", false⟩
    ∧ (add_state emptyAutomaton "q1").fst.states
        = emptyAutomaton.states ++ [⟨0, "q1", false⟩]
    ∧ has_state (add_state emptyAutomaton "q1").fst "q1" = true
    ∧ add_state (add_state emptyAutomaton "q1").fst "q1"
        = ((add_state emptyAutomaton "q1").fst,
           .error (.stateExists "q1")) :=
  add_state_then_duplicate emptyAutomaton "q1" (by decide) (by decide)

/-- **C5.** `add_transition` fails with `TransitionExists` when a
transition with the same `(origin, when)` pair is present; otherwise
with `StateNotFound` when the origin's name (or a provided target's
name) is not in the state collection; every failure leaves the
automaton — in particular its transition list — unchanged; on success
the constructed transition is appended and returned. -/
theorem add_transition_cases
    (a : Automaton) (origin : State) (target : Option State)
    (w : Option String) :
    (has_transition a origin w = true →
      add_transition a origin target w
        = (a, .error (.transitionExists origin.name w)))
    ∧ (has_transition a origin w = false →
        has_state a origin.name = false →
      add_transition a origin target w
        = (a, .error (.stateNotFound origin.name)))
    ∧ (∀ tg, target = some tg → has_transition a origin w = false →
        has_state a origin.name = true → has_state a tg.name = false →
      add_transition a origin target w
        = (a, .error (.stateNotFound tg.name)))
    ∧ (has_transition a origin w = false →
        has_state a origin.name = true →
        (∀ tg, target = some tg → has_state a tg.name = true) →
      add_transition a origin target w
        = ({ a with transitions :=
              a.transitions ++ [Transition.make origin target w] },
           .ok (Transition.make origin target w))) := by
  refine ⟨fun h1 => ?_, fun h1 h2 => ?_, fun tg htg h1 h2 h3 => ?_,
    fun h1 h2 h3 => ?_⟩
  · simp [add_transition, h1]
  · simp [add_transition, h1, h2]
  · subst htg
    simp [add_transition, h1, h2, h3]
  · cases target with
    | none => simp [add_transition, h1, h2]
    | some tg => simp [add_transition, h1, h2, h3 tg rfl]

/-- Witness for C5: all four cases on a concrete two-state automaton. -/
theorem add_transition_cases_witness :
    (add_transition
        ⟨2, [⟨0, "q1", false⟩, ⟨1, "q2", true⟩],
         [Transition.make ⟨0, "q1", false⟩ none (some "a")], none⟩
        ⟨0, "q1", false⟩ none (some "a")
      = (⟨2, [⟨0, "q1", false⟩, ⟨1, "q2", true⟩],
          [Transition.make ⟨0, "q1", false⟩ none (some "a")], none⟩,
         .error (.transitionExists "q1" (some "a"))))
    ∧ (add_transition
        ⟨2, [⟨0, "q1", false⟩, ⟨1, "q2", true⟩],
         [Transition.make ⟨0, "q1", false⟩ none (some "a")], none⟩
        ⟨7, "zz", false⟩ none (some "b")
      = (⟨2, [⟨0, "q1", false⟩, ⟨1, "q2", true⟩],
          [Transition.make ⟨0, "q1", false⟩ none (some "a")], none⟩,
         .error (.stateNotFound "zz"))) :=
  ⟨((add_transition_cases _ _ none (some "a")).1 (by decide)),
   ((add_transition_cases _ _ none (some "b")).2.1 (by decide) (by decide))⟩

/-- **C2, counterexample.** Importing the example table with the
defaults yields 9 transitions — one per non-dash data cell — not the
7 the claim states. -/
theorem example_table_not_seven_transitions :
    (parse_csv emptyAutomaton {} exampleRows).fst.transitions.length = 9
    ∧ ¬ (parse_csv emptyAutomaton {} exampleRows).fst.transitions.length
        = 7 := by
  decide

/-- **C2, amended.** Importing the example table with the defaults
succeeds and yields exactly 3 states named q1, q2, q3, with q1 initial
and q3 the only final state, and exactly 9 transitions (one per
non-dash data cell). -/
theorem example_table_import :
    (parse_csv emptyAutomaton {} exampleRows).snd = .ok ()
    ∧ (parse_csv emptyAutomaton {} exampleRows).fst.states.map State.name
        = ["q1", "q2", "q3"]
    ∧ (parse_csv emptyAutomaton {} exampleRows).fst.initialState.map
        State.name = some "q1"
    ∧ (final_states (parse_csv emptyAutomaton {} exampleRows).fst).map
        State.name = ["q3"]
    ∧ (parse_csv emptyAutomaton {} exampleRows).fst.transitions.map
        (fun t => (t.origin.name, t.cond, t.target.name))
        = [("q1", some "a", "q2"), ("q1", some "c", "q1"),
           ("q1", none, "q3"),
           ("q2", some "a", "q2"), ("q2", some "b", "q1"),
           ("q2", some "c", "q3"),
           ("q3", some "b", "q1"), ("q3", some "c", "q3"),
           ("q3", none, "q2")] := by
  decide

/-- **C6, counterexample.** At state index 0 with `n = 4`,
`drawing_radius_factor = 25`, `drawing_margin = 100`, the y coordinate
is `r·sin(π) + r + margin = 0 + 100 + 100 = 200`, not the 100 the
claim states. -/
theorem layout_y_at_index_zero_is_200 :
    state_y 0 4 25 100 = 200 ∧ ¬ state_y 0 4 25 100 = 100 := by
  have h : state_y 0 4 25 100 = 200 := by
    rw [state_y, state_angle, state_radius]
    norm_num [Real.sin_pi]
  exact ⟨h, by rw [h]; norm_num⟩

/-- **C6, amended.** The export layout places the state at index `idx`
among `n ≥ 1` states at angle `2π·idx/n + π` and radius
`n · drawing_radius_factor`, with `x = r·cos(a) + r + margin` and
`y = r·sin(a) + r + margin`; for `n = 4`, factor 25, margin 100, index
0 gets `x = 100` and `y = 200`; and for a non-negative factor and
margin no coordinate is negative. -/
theorem layout_formula_and_bounds (idx n : Nat) (factor margin : ℝ)
    (hn : 1 ≤ n) (hf : 0 ≤ factor) (hm : 0 ≤ margin) :
    state_x idx n factor margin
      = n * factor * Real.cos (2 * Real.pi * idx / n + Real.pi)
        + n * factor + margin
    ∧ state_y idx n factor margin
      = n * factor * Real.sin (2 * Real.pi * idx / n + Real.pi)
        + n * factor + margin
    ∧ state_x 0 4 25 100 = 100
    ∧ state_y 0 4 25 100 = 200
    ∧ 0 ≤ state_x idx n factor margin
    ∧ 0 ≤ state_y idx n factor margin := by
  have hr : (0 : ℝ) ≤ n * factor :=
    mul_nonneg (Nat.cast_nonneg n) hf
  refine ⟨rfl, rfl, ?_, ?_, ?_, ?_⟩
  · rw [state_x, state_angle, state_radius]
    norm_num [Real.cos_pi]
  · rw [state_y, state_angle, state_radius]
    norm_num [Real.sin_pi]
  · have hc := Real.neg_one_le_cos (state_angle idx n)
    rw [state_x, state_radius]
    nlinarith
  · have hs := Real.neg_one_le_sin (state_angle idx n)
    rw [state_y, state_radius]
    nlinarith

/-- Witness for the amended C6 at a concrete input. -/
theorem layout_formula_and_bounds_witness :
    state_x 0 4 25 100 = 100 ∧ 0 ≤ state_y 1 4 (25 : ℝ) 100 :=
  ⟨(layout_formula_and_bounds 0 4 25 100 (by norm_num) (by norm_num)
      (by norm_num)).2.2.1,
   (layout_formula_and_bounds 1 4 25 100 (by norm_num) (by norm_num)
      (by norm_num)).2.2.2.2.2⟩

/-- Evaluation of `popAt` on an in-range index. -/
theorem popAt_eq_ok (xs : List String) (i : Nat) (h : i < xs.length) :
    popAt xs i = .ok (xs[i], xs.eraseIdx i) := by
  rw [popAt, dif_pos h]
  rfl

/-- **C4.** For every data row and every pair of distinct in-range
column indices, the first-pass removal arithmetic selects the original
cells — the state name is the row's cell at the name index and the
marker is the row's cell at the marker index, thanks to the decrement
applied exactly when the marker index exceeds the name index — and the
second-pass descending removal retains exactly the original row minus
those two columns, in order. -/
theorem two_column_removal (row : List String) (i j : Nat)
    (hne : i ≠ j) (hi : i < row.length) (hj : j < row.length) :
    (∃ rest, split_state_marker row i j = .ok (row[i], row[j], rest))
    ∧ (∃ cells, pop_two_desc i j row = .ok cells
        ∧ cells.length = row.length - 2
        ∧ ∀ k, cells[k]? = row[skip_two i j k]?) := by
  constructor
  · have hd : j - (if j > i then 1 else 0) < (row.eraseIdx i).length := by
      rw [List.length_eraseIdx_of_lt hi]
      rcases Nat.lt_or_lt_of_ne hne with h | h <;>
        simp only [if_pos, if_neg, gt_iff_lt] <;> split <;> omega
    refine ⟨(row.eraseIdx i).eraseIdx (j - (if j > i then 1 else 0)), ?_⟩
    have hm : (row.eraseIdx i)[j - (if j > i then 1 else 0)] = row[j] := by
      rcases Nat.lt_or_lt_of_ne hne with h | h
      · -- i < j: the decrement applies
        simp only [if_pos (by omega : j > i)]
        rw [List.getElem_eraseIdx, dif_neg (by omega : ¬ j - 1 < i)]
        congr 1
        omega
      · -- j < i: no decrement, index unshifted
        simp only [if_neg (by omega : ¬ j > i), Nat.sub_zero]
        rw [List.getElem_eraseIdx, dif_pos (by omega : j < i)]
    simp only [split_state_marker, popAt_eq_ok row i hi,
      popAt_eq_ok (row.eraseIdx i) (j - (if j > i then 1 else 0)) hd, hm]
  · have hmax : max i j < row.length := by
      omega
    have hmin : min i j < (row.eraseIdx (max i j)).length := by
      rw [List.length_eraseIdx_of_lt hmax]
      rcases Nat.lt_or_lt_of_ne hne with h | h <;> omega
    refine ⟨(row.eraseIdx (max i j)).eraseIdx (min i j), ?_, ?_, ?_⟩
    · simp only [pop_two_desc, popAt_eq_ok row (max i j) hmax,
        popAt_eq_ok (row.eraseIdx (max i j)) (min i j) hmin]
    · rw [List.length_eraseIdx_of_lt hmin, List.length_eraseIdx_of_lt hmax]
      omega
    · intro k
      by_cases h1 : k < min i j
      · have h2 : k < max i j := by omega
        simp only [List.getElem?_eraseIdx, if_pos h1, if_pos h2, skip_two]
      · by_cases h3 : k + 1 < max i j
        · simp only [List.getElem?_eraseIdx, if_neg h1, if_pos h3, skip_two]
        · simp only [List.getElem?_eraseIdx, if_neg h1, if_neg h3, skip_two]

/-- Witness for C4 at a concrete row and index pair. -/
theorem two_column_removal_witness :
    (∃ rest, split_state_marker ["m", "n", "p", "q"] 1 3
      = .ok ("n", "q", rest))
    ∧ (∃ cells, pop_two_desc 1 3 ["m", "n", "p", "q"] = .ok cells
        ∧ cells.length = 2
        ∧ ∀ k, cells[k]? = ["m", "n", "p", "q"][skip_two 1 3 k]?) :=
  two_column_removal ["m", "n", "p", "q"] 1 3 (by decide) (by decide)
    (by decide)

/-- `has_state` as an existence statement over the state list. -/
theorem has_state_iff (a : Automaton) (n : String) :
    has_state a n = true ↔ ∃ s, s ∈ a.states ∧ s.name = n := by
  simp [has_state, get_state, List.find?_isSome]

/-- `has_state` only reads the state list, so appending states
preserves it. -/
theorem has_state_append_mono (a : Automaton) (l : List State) (m : String)
    (h : has_state a m = true) :
    has_state { a with states := a.states ++ l } m = true := by
  rw [has_state_iff] at h ⊢
  obtain ⟨s, hs, hn⟩ := h
  exact ⟨s, by simp [hs], hn⟩

/-- `set_final` renames no state, so `has_state` is unchanged. -/
theorem has_state_set_final (a : Automaton) (sid : Nat) (m : String) :
    has_state (set_final a sid) m = has_state a m := by
  have hp : ((fun s : State => s.name == m) ∘
      (fun s : State => if s.id = sid then { s with isFinal := true } else s))
      = (fun s : State => s.name == m) := by
    funext s
    by_cases h : s.id = sid <;> simp [h]
  simp [set_final, has_state, get_state, List.find?_map, hp]

/-- `reset` vacuously satisfies the invariant. -/
theorem namedInv_reset (a : Automaton) : namedInv (reset a) := by
  refine ⟨fun t ht => ?_, fun s hs => ?_⟩
  · simp [reset] at ht
  · simp [reset] at hs

/-- `add_state` preserves the invariant. -/
theorem namedInv_add_state (a : Automaton) (n : String) (h : namedInv a) :
    namedInv (add_state a n).fst := by
  rw [add_state]
  split
  · exact h
  · split
    · exact h
    · obtain ⟨ht, hi⟩ := h
      refine ⟨fun t hmem => ?_, fun s hs => ?_⟩
      · obtain ⟨h1, h2⟩ := ht t hmem
        exact ⟨has_state_append_mono a _ _ h1, has_state_append_mono a _ _ h2⟩
      · exact has_state_append_mono a _ _ (hi s hs)

/-- `add_transition` preserves the invariant. -/
theorem namedInv_add_transition (a : Automaton) (o : State)
    (tgt : Option State) (w : Option String) (h : namedInv a) :
    namedInv (add_transition a o tgt w).fst := by
  rw [add_transition]
  split
  · exact h
  · split
    · exact h
    · rename_i ho
      have ho' : has_state a o.name = true := by simpa using ho
      obtain ⟨ht, hi⟩ := h
      cases tgt with
      | none =>
        refine ⟨fun t hmem => ?_, hi⟩
        rw [List.mem_append] at hmem
        rcases hmem with hmem | hmem
        · exact ht t hmem
        · rw [List.mem_singleton] at hmem
          subst hmem
          exact ⟨ho', ho'⟩
      | some tg =>
        dsimp only
        split
        · exact ⟨ht, hi⟩
        · rename_i htg
          have htg' : has_state a tg.name = true := by simpa using htg
          refine ⟨fun t hmem => ?_, hi⟩
          rw [List.mem_append] at hmem
          rcases hmem with hmem | hmem
          · exact ht t hmem
          · rw [List.mem_singleton] at hmem
            subst hmem
            exact ⟨ho', htg'⟩

/-- The `initial_state` setter preserves the invariant. -/
theorem namedInv_set_initial (a : Automaton) (s : State) (h : namedInv a) :
    namedInv (set_initial_state a s).fst := by
  rw [set_initial_state]
  split
  · exact h
  · rename_i hs
    have hs' : has_state a s.name = true := by simpa using hs
    obtain ⟨ht, _⟩ := h
    refine ⟨ht, fun s' hmem => ?_⟩
    obtain rfl : s = s' := by simpa using hmem
    exact hs'

/-- The `is_final` update does not change a state's name. -/
theorem upd_final_name (sid : Nat) (s : State) :
    (if s.id = sid then { s with isFinal := true } else s).name = s.name := by
  split <;> rfl

/-- `set_final` preserves the invariant. -/
theorem namedInv_set_final (a : Automaton) (sid : Nat) (h : namedInv a) :
    namedInv (set_final a sid) := by
  obtain ⟨ht, hi⟩ := h
  constructor
  · intro t hmem
    rw [show (set_final a sid).transitions = a.transitions.map
        (fun t => { t with
          origin := if t.origin.id = sid then
              { t.origin with isFinal := true } else t.origin,
          target := if t.target.id = sid then
              { t.target with isFinal := true } else t.target }) from rfl,
      List.mem_map] at hmem
    obtain ⟨t0, ht0, rfl⟩ := hmem
    obtain ⟨h1, h2⟩ := ht t0 ht0
    constructor
    · rw [has_state_set_final]
      show has_state a (if t0.origin.id = sid then
          { t0.origin with isFinal := true } else t0.origin).name = true
      rw [upd_final_name]
      exact h1
    · rw [has_state_set_final]
      show has_state a (if t0.target.id = sid then
          { t0.target with isFinal := true } else t0.target).name = true
      rw [upd_final_name]
      exact h2
  · intro s hs
    rw [show (set_final a sid).initialState = a.initialState.map
        (fun s => if s.id = sid then { s with isFinal := true } else s)
        from rfl, Option.map_eq_some'] at hs
    obtain ⟨s0, hs0, rfl⟩ := hs
    rw [has_state_set_final, upd_final_name]
    exact hi s0 hs0

/-- One first-pass iteration preserves the invariant. -/
theorem namedInv_parse_row_state (cfg : ParseConfig) (a : Automaton)
    (row : List String) (a' : Automaton) (h : namedInv a)
    (hres : parse_row_state cfg a row = .ok a') : namedInv a' := by
  rw [parse_row_state] at hres
  split at hres
  · cases hres
  · rename_i name row1 _
    split at hres
    · cases hres
    · rename_i a1 st heq1
      have h1 : namedInv a1 := by
        have h2 := namedInv_add_state a name h
        rw [heq1] at h2
        exact h2
      split at hres
      · cases hres
      · split at hres
        · cases hres
        · rename_i a2 heq2
          have h3 : namedInv a2 := by
            split at heq2
            · split at heq2
              · cases heq2
              · split at heq2
                · cases heq2
                · rename_i a3 _ heq3
                  obtain rfl : a3 = a2 := by cases heq2; rfl
                  have h4 := namedInv_set_initial a1 st h1
                  rw [heq3] at h4
                  exact h4
            · obtain rfl : a1 = a2 := by cases heq2; rfl
              exact h1
          obtain rfl : (if strIn cfg.final_state_symbol _ then
              set_final a2 st.id else a2) = a' := by cases hres; rfl
          split
          · exact namedInv_set_final a2 st.id h3
          · exact h3

/-- The whole first pass preserves the invariant. -/
theorem namedInv_parse_pass1 (cfg : ParseConfig) :
    ∀ (rows : List (List String)) (a a' : Automaton), namedInv a →
      parse_pass1 cfg a rows = .ok a' → namedInv a'
  | [], a, a', h, hres => by
    cases hres
    exact h
  | row :: rest, a, a', h, hres => by
    rw [parse_pass1] at hres
    split at hres
    · cases hres
    · rename_i a1 heq
      exact namedInv_parse_pass1 cfg rest a1 a'
        (namedInv_parse_row_state cfg a row a1 h heq) hres

/-- The inner loop of the second pass preserves the invariant. -/
theorem namedInv_add_row_transitions (cfg : ParseConfig) (st : State) :
    ∀ (pairs : List (String × String)) (a a' : Automaton), namedInv a →
      add_row_transitions cfg st a pairs = .ok a' → namedInv a'
  | [], a, a', h, hres => by
    cases hres
    exact h
  | (w, name) :: rest, a, a', h, hres => by
    rw [add_row_transitions] at hres
    split at hres
    · exact namedInv_add_row_transitions cfg st rest a a' h hres
    · split at hres
      · cases hres
      · rename_i target _
        split at hres
        · cases hres
        · rename_i a1 t heq
          have h1 : namedInv a1 := by
            have h2 := namedInv_add_transition a st (some target)
              (if w ≠ cfg.empty_string_symbol then some w else none) h
            rw [heq] at h2
            exact h2
          exact namedInv_add_row_transitions cfg st rest a1 a' h1 hres

/-- The whole second pass preserves the invariant. -/
theorem namedInv_parse_pass2 (cfg : ParseConfig) (columns : List String) :
    ∀ (sts : List State) (rows : List (List String)) (a a' : Automaton),
      namedInv a → parse_pass2 cfg columns a sts rows = .ok a' → namedInv a'
  | [], _, a, a', h, hres => by
    cases hres
    exact h
  | _ :: _, [], a, a', h, hres => by
    rw [parse_pass2] at hres
    cases hres
  | st :: sts, row :: rows, a, a', h, hres => by
    rw [parse_pass2] at hres
    split at hres
    · cases hres
    · split at hres
      · cases hres
      · rename_i a1 heq
        exact namedInv_parse_pass2 cfg columns sts rows a1 a'
          (namedInv_add_row_transitions cfg st _ a a1 h heq) hres

/-- `parse_csv` preserves the invariant. -/
theorem namedInv_parse_csv (a : Automaton) (cfg : ParseConfig)
    (rows : List (List String)) (h : namedInv a) :
    namedInv (parse_csv a cfg rows).fst := by
  rw [parse_csv.eq_def]
  split
  · exact h
  · split
    · exact h
    · rename_i header dataRows
      split
      · rename_i a' hpop
        rw [parse_populate] at hpop
        split at hpop
        · cases hpop
        · rename_i a1 heq1
          split at hpop
          · cases hpop
          · rename_i columns _
            exact namedInv_parse_pass2 cfg columns a1.states dataRows a1 a'
              (namedInv_parse_pass1 cfg dataRows (reset a) a1
                (namedInv_reset a) heq1) hpop
      · exact namedInv_reset (reset a)

/-- **C3, counterexample.** The membership check of `add_transition` is
by name only: a `State` object that was never added (identity 99) but
shares the name of a member passes validation, and the appended
transition's origin is then not an element of the state collection. -/
theorem transition_origin_escapes_state_collection :
    (add_transition (add_state emptyAutomaton "q1").fst
        ⟨99, "q1", false⟩ none none).snd
      = .ok (Transition.make ⟨99, "q1", false⟩ none none)
    ∧ ¬ (∀ t ∈ (add_transition (add_state emptyAutomaton "q1").fst
            ⟨99, "q1", false⟩ none none).fst.transitions,
          t.origin ∈ (add_transition (add_state emptyAutomaton "q1").fst
            ⟨99, "q1", false⟩ none none).fst.states) := by
  decide

/-- **C3, amended.** Every public mutating operation (`add_state`,
`add_transition`, the `initial_state` setter, `parse_csv`, `reset`)
preserves the invariant the code enforces: every transition endpoint
bears the name of some state of the collection, and the initial-state
reference, if set, bears the name of some state of the collection
(membership is validated by name, not by object identity). -/
theorem mutators_preserve_named_invariant
    (a : Automaton) (h : namedInv a) (n : String) (o : State)
    (tgt : Option State) (w : Option String) (s : State)
    (cfg : ParseConfig) (rows : List (List String)) :
    namedInv (add_state a n).fst
    ∧ namedInv (add_transition a o tgt w).fst
    ∧ namedInv (set_initial_state a s).fst
    ∧ namedInv (parse_csv a cfg rows).fst
    ∧ namedInv (reset a) :=
  ⟨namedInv_add_state a n h, namedInv_add_transition a o tgt w h,
   namedInv_set_initial a s h, namedInv_parse_csv a cfg rows h,
   namedInv_reset a⟩

/-- Witness for the amended C3 at concrete inputs. -/
theorem mutators_preserve_named_invariant_witness :
    namedInv (add_state priorAutomaton "q9").fst
    ∧ namedInv (add_transition priorAutomaton ⟨0, "q1", false⟩ none
        (some "z")).fst
    ∧ namedInv (set_initial_state priorAutomaton ⟨1, "q2", false⟩).fst
    ∧ namedInv (parse_csv priorAutomaton {} exampleRows).fst
    ∧ namedInv (reset priorAutomaton) :=
  mutators_preserve_named_invariant priorAutomaton
    (by
      constructor
      · decide
      · decide)
    "q9" ⟨0, "q1", false⟩ none (some "z") ⟨1, "q2", false⟩ {} exampleRows

/-- Shape of a successful `add_transition`: the constructed transition
is appended and returned. -/
theorem add_transition_ok_shape (a : Automaton) (o : State)
    (tgt : Option State) (w : Option String) (a1 : Automaton)
    (t : Transition) (h : add_transition a o tgt w = (a1, .ok t)) :
    a1 = { a with transitions := a.transitions ++ [Transition.make o tgt w] }
    ∧ t = Transition.make o tgt w := by
  rw [add_transition] at h
  split at h
  · simp at h
  · dsimp only at h
    split at h
    · simp at h
    · split at h
      · split at h
        · simp at h
        · rw [Prod.mk.injEq] at h
          exact ⟨h.1.symm, (Except.ok.inj h.2).symm⟩
      · rw [Prod.mk.injEq] at h
        exact ⟨h.1.symm, (Except.ok.inj h.2).symm⟩

/-- Appending transitions preserves `has_transition`. -/
theorem has_transition_append (a : Automaton) (l : List Transition)
    (o : State) (w : Option String) (h : has_transition a o w = true) :
    has_transition { a with transitions := a.transitions ++ l } o w
      = true := by
  simp only [has_transition, get_transition, List.find?_isSome] at h ⊢
  obtain ⟨t, ht, hp⟩ := h
  exact ⟨t, by simp [ht], hp⟩

/-- After appending a transition whose stored condition equals the raw
condition, `has_transition` holds for that pair. -/
theorem has_transition_new (a : Automaton) (o : State) (tgt : Option State)
    (w : Option String) (hw : (Transition.make o tgt w).cond = w) :
    has_transition { a with transitions :=
        a.transitions ++ [Transition.make o tgt w] } o w = true := by
  simp only [has_transition, get_transition, List.find?_isSome]
  refine ⟨Transition.make o tgt w, by simp, ?_⟩
  rw [show (Transition.make o tgt w).origin = o from rfl, hw]
  simp [stateEq]

/-- For a non-empty condition label, the normalisation of the
`Transition` constructor is the identity on the raw condition the
second pass passes in. -/
theorem make_cond_raw (o : State) (tgt : Option State) (L e : String)
    (hL : L ≠ "") :
    (Transition.make o tgt (if L ≠ e then some L else none)).cond
      = (if L ≠ e then some L else none) := by
  by_cases h : L = e
  · simp [h, Transition.make]
  · simp [h, Transition.make, hL]

/-- If a `(origin, when)` pair is already present, any later pair of
the row with the same raw condition and a non-skipped cell makes the
inner loop fail. -/
theorem add_row_transitions_blocked (cfg : ParseConfig) (st : State) :
    ∀ (pairs : List (String × String)) (a : Automaton) (L v : String),
      (L, v) ∈ pairs → v ≠ cfg.no_transition_symbol →
      has_transition a st
        (if L ≠ cfg.empty_string_symbol then some L else none) = true →
      ∀ a', add_row_transitions cfg st a pairs ≠ .ok a'
  | [], a, L, v, hmem, _, _, a' => by simp at hmem
  | (w0, n0) :: rest, a, L, v, hmem, hv, hdup, a' => by
    intro hok
    rw [add_row_transitions] at hok
    rcases List.mem_cons.mp hmem with heq | hmem'
    · injection heq.symm with h1 h2
      rw [h1, h2] at hok
      rw [if_neg hv] at hok
      split at hok
      · simp at hok
      · rw [add_transition, if_pos hdup] at hok
        simp at hok
    · split at hok
      · exact add_row_transitions_blocked cfg st rest a L v hmem' hv hdup
          a' hok
      · split at hok
        · simp at hok
        · split at hok
          · simp at hok
          · rename_i a1 t heq1
            obtain ⟨h1, -⟩ := add_transition_ok_shape _ _ _ _ _ _ heq1
            subst h1
            exact add_row_transitions_blocked cfg st rest _ L v hmem' hv
              (has_transition_append a _ st _ hdup) a' hok

/-- Two retained columns with the same non-empty label and two
non-skipped cells make the inner loop of the second pass fail: the
first occurrence adds the pair, the second trips the duplicate
check. -/
theorem add_row_transitions_two_dups (cfg : ParseConfig) (st : State) :
    ∀ (pairs : List (String × String)) (p q : Nat) (L vp vq : String),
      p < q → L ≠ "" →
      pairs[p]? = some (L, vp) → pairs[q]? = some (L, vq) →
      vp ≠ cfg.no_transition_symbol → vq ≠ cfg.no_transition_symbol →
      ∀ a a', add_row_transitions cfg st a pairs ≠ .ok a'
  | [], p, q, L, vp, vq, hpq, hL, hp, hq, hvp, hvq, a, a' => by
    simp at hp
  | (w0, n0) :: rest, p, q, L, vp, vq, hpq, hL, hp, hq, hvp, hvq, a, a' => by
    intro hok
    cases p with
    | zero =>
      have h0 : w0 = L ∧ n0 = vp := by simpa using hp
      obtain ⟨h1, h2⟩ := h0
      obtain ⟨q', rfl⟩ : ∃ q', q = q' + 1 := ⟨q - 1, by omega⟩
      have hq' : rest[q']? = some (L, vq) := by simpa using hq
      rw [add_row_transitions, h1, h2, if_neg hvp] at hok
      split at hok
      · simp at hok
      · rename_i tgt hget
        split at hok
        · simp at hok
        · rename_i a1 t heq1
          obtain ⟨h3, -⟩ := add_transition_ok_shape _ _ _ _ _ _ heq1
          subst h3
          refine add_row_transitions_blocked cfg st rest _ L vq
            (List.getElem?_mem hq') hvq ?_ a' hok
          exact has_transition_new a st (some tgt) _
            (make_cond_raw st (some tgt) L cfg.empty_string_symbol hL)
    | succ p' =>
      obtain ⟨q', rfl⟩ : ∃ q', q = q' + 1 := ⟨q - 1, by omega⟩
      have hp' : rest[p']? = some (L, vp) := by simpa using hp
      have hq' : rest[q']? = some (L, vq) := by simpa using hq
      rw [add_row_transitions] at hok
      split at hok
      · exact add_row_transitions_two_dups cfg st rest p' q' L vp vq
          (by omega) hL hp' hq' hvp hvq a a' hok
      · split at hok
        · simp at hok
        · split at hok
          · simp at hok
          · rename_i a1 t heq1
            exact add_row_transitions_two_dups cfg st rest p' q' L vp vq
              (by omega) hL hp' hq' hvp hvq a1 a' hok

/-- Shape of a successful `add_state`. -/
theorem add_state_ok_states (a : Automaton) (n : String) (a1 : Automaton)
    (st : State) (h : add_state a n = (a1, .ok st)) :
    a1.states = a.states ++ [st] := by
  rw [add_state] at h
  split at h
  · simp at h
  · split at h
    · simp at h
    · rw [Prod.mk.injEq] at h
      obtain ⟨h1, h2⟩ := h
      rw [← h1, ← Except.ok.inj h2]

/-- The `initial_state` setter does not change the state list. -/
theorem set_initial_state_states (a : Automaton) (s : State) :
    (set_initial_state a s).fst.states = a.states := by
  rw [set_initial_state]
  split <;> rfl

/-- `set_final` does not change the number of states. -/
theorem set_final_states_length (a : Automaton) (sid : Nat) :
    (set_final a sid).states.length = a.states.length := by
  simp [set_final]

/-- Each successful first-pass iteration adds exactly one state. -/
theorem parse_row_state_length (cfg : ParseConfig) (a : Automaton)
    (row : List String) (a' : Automaton)
    (h : parse_row_state cfg a row = .ok a') :
    a'.states.length = a.states.length + 1 := by
  rw [parse_row_state] at h
  split at h
  · simp at h
  · split at h
    · simp at h
    · rename_i a1 st heq1
      have h1 : a1.states.length = a.states.length + 1 := by
        rw [add_state_ok_states a _ a1 st heq1]
        simp
      split at h
      · simp at h
      · split at h
        · simp at h
        · rename_i a2 heq2
          have h2 : a2.states.length = a1.states.length := by
            split at heq2
            · split at heq2
              · simp at heq2
              · split at heq2
                · simp at heq2
                · rename_i a3 _ heq3
                  obtain rfl : a3 = a2 := by simpa using heq2
                  have h5 : (set_initial_state a1 st).fst = a3 := by
                    rw [heq3]
                  rw [← h5, set_initial_state_states]
            · obtain rfl : a1 = a2 := by simpa using heq2
              rfl
          have h3 := Except.ok.inj h
          rw [← h3]
          split
          · rw [set_final_states_length, h2, h1]
          · rw [h2, h1]

/-- The first pass adds exactly one state per data row. -/
theorem parse_pass1_length (cfg : ParseConfig) :
    ∀ (rows : List (List String)) (a a' : Automaton),
      parse_pass1 cfg a rows = .ok a' →
      a'.states.length = a.states.length + rows.length
  | [], a, a', h => by
    cases h
    simp
  | row :: rest, a, a', h => by
    rw [parse_pass1] at h
    split at h
    · simp at h
    · rename_i a1 heq
      have h1 := parse_pass1_length cfg rest a1 a' h
      rw [h1, parse_row_state_length cfg a row a1 heq]
      simp [Nat.add_comm, Nat.add_assoc, Nat.add_left_comm]

/-- If the second pass succeeds, every (state, data row) pair at a
common index was processed successfully from some intermediate
automaton. -/
theorem parse_pass2_ok_processed (cfg : ParseConfig)
    (columns : List String) :
    ∀ (sts : List State) (rows : List (List String)) (a a' : Automaton),
      parse_pass2 cfg columns a sts rows = .ok a' →
      ∀ (i : Nat) (st : State) (row : List String),
        sts[i]? = some st → rows[i]? = some row →
        ∃ cells b b', pop_two_desc cfg.states_col_index
            cfg.state_symbols_col_index row = .ok cells
          ∧ add_row_transitions cfg st b (columns.zip cells) = .ok b'
  | [], rows, a, a', hok, i, st, row, hst, hrow => by
    simp at hst
  | st0 :: sts, [], a, a', hok, i, st, row, hst, hrow => by
    rw [parse_pass2] at hok
    simp at hok
  | st0 :: sts, row0 :: rows, a, a', hok, i, st, row, hst, hrow => by
    rw [parse_pass2] at hok
    split at hok
    · simp at hok
    · rename_i cells0 hpop
      split at hok
      · simp at hok
      · rename_i a1 hart
        cases i with
        | zero =>
          obtain rfl : st0 = st := by simpa using hst
          obtain rfl : row0 = row := by simpa using hrow
          exact ⟨cells0, a, a1, hpop, hart⟩
        | succ i' =>
          exact parse_pass2_ok_processed cfg columns sts rows a1 a' hok
            i' st row (by simpa using hst) (by simpa using hrow)

/-- **C10, amended.** If the header has the same *non-empty* condition
label in two retained columns and some data row holds a non-skipped
cell in both, the import cannot succeed: `parse_csv` fails (with
`TransitionExists` when the duplicate addition is the first failure
encountered) and, by the rollback rule, leaves the automaton empty.
(With an empty repeated label the duplicate check is bypassed, see the
counterexample.) -/
theorem duplicate_label_blocks_import
    (a : Automaton) (cfg : ParseConfig) (header : List String)
    (dataRows : List (List String)) (row columns cells : List String)
    (p q : Nat) (L vp vq : String)
    (hcols : cfg.states_col_index ≠ cfg.state_symbols_col_index)
    (hheader : pop_two_desc cfg.states_col_index
      cfg.state_symbols_col_index header = .ok columns)
    (hrow : row ∈ dataRows)
    (hcells : pop_two_desc cfg.states_col_index
      cfg.state_symbols_col_index row = .ok cells)
    (hpq : p < q) (hL : L ≠ "")
    (hcp : columns[p]? = some L) (hcq : columns[q]? = some L)
    (hvp : cells[p]? = some vp) (hvq : cells[q]? = some vq)
    (hvp' : vp ≠ cfg.no_transition_symbol)
    (hvq' : vq ≠ cfg.no_transition_symbol) :
    (∃ e, (parse_csv a cfg (header :: dataRows)).snd = .error e)
    ∧ (parse_csv a cfg (header :: dataRows)).fst.states = []
    ∧ (parse_csv a cfg (header :: dataRows)).fst.transitions = []
    ∧ (parse_csv a cfg (header :: dataRows)).fst.initialState = none := by
  have hfail : ∀ a'', parse_populate cfg (reset a) header dataRows
      ≠ .ok a'' := by
    intro a'' hok
    rw [parse_populate] at hok
    split at hok
    · simp at hok
    · rename_i a1 heq1
      split at hok
      · simp at hok
      · rename_i columns' heq2
        rw [hheader] at heq2
        obtain rfl : columns = columns' := by simpa using heq2
        obtain ⟨i, hrowi⟩ := List.mem_iff_getElem?.mp hrow
        have hidx : i < dataRows.length := by
          by_contra hcon
          rw [List.getElem?_eq_none (by omega)] at hrowi
          cases hrowi
        have hlen : a1.states.length = dataRows.length := by
          have h5 := parse_pass1_length cfg dataRows (reset a) a1 heq1
          simpa [reset] using h5
        obtain ⟨st, hst⟩ : ∃ st, a1.states[i]? = some st := by
          cases hgs : a1.states[i]? with
          | some st => exact ⟨st, rfl⟩
          | none =>
            rw [List.getElem?_eq_none_iff] at hgs
            omega
        obtain ⟨cells', b, b', hpop', hart⟩ :=
          parse_pass2_ok_processed cfg columns a1.states dataRows a1 a''
            hok i st row hst hrowi
        rw [hcells] at hpop'
        obtain rfl : cells = cells' := by simpa using hpop'
        have hzp : (columns.zip cells)[p]? = some (L, vp) :=
          List.getElem?_zip_eq_some.mpr ⟨hcp, hvp⟩
        have hzq : (columns.zip cells)[q]? = some (L, vq) :=
          List.getElem?_zip_eq_some.mpr ⟨hcq, hvq⟩
        exact add_row_transitions_two_dups cfg st (columns.zip cells)
          p q L vp vq hpq hL hzp hzq hvp' hvq' b b' hart
  rw [parse_csv.eq_def, if_neg hcols]
  cases hpop : parse_populate cfg (reset a) header dataRows with
  | ok a2 => exact absurd hpop (hfail a2)
  | error e =>
    simp only [hpop]
    exact ⟨⟨e, rfl⟩, rfl, rfl, rfl⟩

/-- Witness for the amended C10: a header repeating the non-empty label
"a" in both retained columns makes the import fail and roll back. -/
theorem duplicate_label_blocks_import_witness :
    (∃ e, (parse_csv emptyAutomaton {}
        [["", "", "a", "a"], [">", "q1", "q1", "q1"]]).snd = .error e)
    ∧ (parse_csv emptyAutomaton {}
        [["", "", "a", "a"], [">", "q1", "q1", "q1"]]).fst.states = []
    ∧ (parse_csv emptyAutomaton {}
        [["", "", "a", "a"], [">", "q1", "q1", "q1"]]).fst.transitions = []
    ∧ (parse_csv emptyAutomaton {}
        [["", "", "a", "a"], [">", "q1", "q1", "q1"]]).fst.initialState
        = none :=
  duplicate_label_blocks_import emptyAutomaton {} ["", "", "a", "a"]
    [[">", "q1", "q1", "q1"]] [">", "q1", "q1", "q1"] ["a", "a"]
    ["q1", "q1"] 0 1 "a" "q1" "q1" (by decide) (by decide) (by decide)
    (by decide) (by decide) (by decide) (by decide) (by decide)
    (by decide) (by decide) (by decide) (by decide)

/-- **C10, counterexample.** With the repeated label being the *empty*
string, the duplicate check is bypassed — the raw condition `some ""`
never compares equal to the stored, normalised `none` — so the claimed
`TransitionExists` failure does not occur: the import succeeds and two
transitions with the same `(origin, when = none)` pair are recorded. -/
theorem duplicate_empty_label_imports_silently :
    (parse_csv emptyAutomaton {}
        [["", "", "", ""], [">", "q1", "q1", "q1"]]).snd = .ok ()
    ∧ (parse_csv emptyAutomaton {}
        [["", "", "", ""], [">", "q1", "q1", "q1"]]).fst.transitions.map
        (fun t => (t.origin.id, t.cond)) = [(0, none), (0, none)] := by
  decide

end Autoflap
